import Mathlib

/-
Verification of the hv media-library backend (Go, `database.go`).

The data-access layer is shallowly embedded: SQL tables become Lean lists of
row structures, `QueryRow ... WHERE username = ? COLLATE NOCASE` becomes a
first-match lookup under ASCII lower-casing (SQLite NOCASE folds exactly the
26 ASCII upper-case letters), and the serialized `session_tokens` JSON blob is
modelled by its decoded slice, a `List TokenEntry` (the Go code always
round-trips the blob through `NewSessionTokens`/`ToSlice`).

Cryptographic primitives (`argon2.IDKey` inside `hashPassword`, SHA-256 inside
`hashToken`) are opaque byte-level functions; they are carried as explicit
function parameters `hp`/`ht : String -> String -> String`, and the
collision-freedom facts a property needs appear as explicit hypotheses.
Randomness (`rand.Read` inside `randomString`) is made explicit: the random
bytes, tokens and salts are parameters of the operations that draw them.
-/

deriving instance DecidableEq for Except

namespace HV

/-- Constants from the Go source. -/
def PasswordSaltLength : Nat := 16

/-- Length in bytes of the randomness behind a session token. -/
def SessionTokenLength : Nat := 30

/-- Cap used by `SessionTokens.AppendNew`. -/
def MaxTokensPerUser : Nat := 20

/-- ASCII lower-casing of a single character, as done by SQLite's NOCASE
collation: the 26 upper-case ASCII letters fold to lower case, everything
else is unchanged. -/
def lowerChar (c : Char) : Char :=
  if 65 ≤ c.toNat ∧ c.toNat ≤ 90 then Char.ofNat (c.toNat + 32) else c

/-- ASCII lower-casing of a string (SQLite NOCASE comparison key). -/
def asciiLower (s : String) : String := ⟨s.data.map lowerChar⟩

/-- Case-insensitive username comparison, the semantics of
`username = ? COLLATE NOCASE`. -/
def usernameMatches (a b : String) : Bool := asciiLower a == asciiLower b

/-- The URL-safe base64 alphabet used by Go's `base64.URLEncoding`. -/
def base64UrlChars : List Char :=
  "ABCDEFGHIJKLMNOPQRSTUVWXYZabcdefghijklmnopqrstuvwxyz0123456789-_".data

/-- Character for a 6-bit group. -/
def base64Char (n : Nat) : Char := base64UrlChars.getD n 'A'

/-- Go's `base64.URLEncoding.EncodeToString` on a byte list (bytes as `Nat`
values below 256), including `=` padding. -/
def base64encode : List Nat → List Char
  | [] => []
  | [b1] => [base64Char (b1 / 4), base64Char (b1 % 4 * 16), '=', '=']
  | [b1, b2] =>
      [base64Char (b1 / 4), base64Char (b1 % 4 * 16 + b2 / 16),
       base64Char (b2 % 16 * 4), '=']
  | b1 :: b2 :: b3 :: rest =>
      base64Char (b1 / 4) :: base64Char (b1 % 4 * 16 + b2 / 16) ::
      base64Char (b2 % 16 * 4 + b3 / 64) :: base64Char (b3 % 64) ::
      base64encode rest

/-- Go's `randomString(n)` reads `n` random bytes and base64-url-encodes
them; the random bytes are the explicit argument here. -/
def randomString (bytes : List Nat) : String := ⟨base64encode bytes⟩

/-- One entry of the per-user session-token ledger: the pair
`(hash(token || salt), salt)` stored by `SessionTokens.AppendNew`. -/
structure TokenEntry where
  hash : String
  salt : String
deriving DecidableEq, Repr

/-- `SessionTokens.HasToken`: scan the entries, recomputing the salted hash
of the candidate token against each stored salt. -/
def hasToken (ht : String → String → String) (entries : List TokenEntry)
    (token : String) : Bool :=
  entries.any fun e => ht token e.salt == e.hash

/-- `SessionTokens.AppendNew`: append the freshly hashed `(hash, salt)` pair,
then drop the oldest entry if the resulting length reached
`MaxTokensPerUser`. The fresh token and salt (random in Go) are arguments. -/
def appendNew (ht : String → String → String) (entries : List TokenEntry)
    (token salt : String) : List TokenEntry :=
  let appended := entries ++ [⟨ht token salt, salt⟩]
  if MaxTokensPerUser ≤ appended.length then appended.drop 1 else appended

/-- `SessionTokens.RemoveToken`: remove the first entry whose stored hash
matches the salted hash of `token`; `none` models the
`SessionTokensErrorUnknownToken` error (the Go code finds the first matching
index and calls `slices.Delete` on it, which is the same removal). -/
def removeToken (ht : String → String → String) (entries : List TokenEntry)
    (token : String) : Option (List TokenEntry) :=
  match entries with
  | [] => none
  | e :: rest =>
      if ht token e.salt == e.hash then some rest
      else
        match removeToken ht rest token with
        | none => none
        | some rest' => some (e :: rest')

/-- One step in the life of a session-token ledger: a successful login
(`AppendNew` with the drawn token and salt) or a logout attempt
(`RemoveToken`). -/
inductive LedgerOp where
  | append (token salt : String)
  | remove (token : String)
deriving DecidableEq, Repr

/-- Apply one ledger operation; a failed `RemoveToken` leaves the stored
list unchanged (the Go callers do not write the blob back on error). -/
def applyLedgerOp (ht : String → String → String)
    (entries : List TokenEntry) : LedgerOp → List TokenEntry
  | .append t s => appendNew ht entries t s
  | .remove t =>
      match removeToken ht entries t with
      | none => entries
      | some l => l

/-- Run a sequence of ledger operations starting from the empty list (the
state `RegisterUser` persists for a fresh user). -/
def runLedgerOps (ht : String → String → String) (ops : List LedgerOp) :
    List TokenEntry :=
  ops.foldl (applyLedgerOp ht) []

/-- The typed error kinds of the database layer (Go `DatabaseError`). -/
inductive DatabaseError where
  | InvalidMetadata
  | InvalidSchema
  | ExistentUser
  | InexistentUser
  | InvalidPassword
  | DisallowedUsername
  | DisallowedPassword
  | InvalidToken
  | InvalidPageNumber
  | InvalidId
  | Unauthorized
  | InvalidPageSize
deriving DecidableEq, Repr

/-- A row of the `Users` table. -/
structure User where
  id : Nat
  username : String
  passwordHash : String
  passwordSalt : String
  sessionTokens : List TokenEntry
deriving DecidableEq, Repr

/-- `QueryRow(... FROM Users WHERE username = ? COLLATE NOCASE)`: the first
row whose username matches case-insensitively. -/
def findUser (users : List User) (username : String) : Option User :=
  users.find? fun u => usernameMatches u.username username

/-- `QueryRow(SELECT username FROM Users WHERE id = ?)`. -/
def findUserById (users : List User) (id : Nat) : Option User :=
  users.find? fun u => u.id == id

/-- `UPDATE Users SET session_tokens = ? WHERE username = ? COLLATE NOCASE`. -/
def updateSessionTokens (users : List User) (username : String)
    (toks : List TokenEntry) : List User :=
  users.map fun u =>
    if usernameMatches u.username username then
      { u with sessionTokens := toks }
    else u

/-- The character whitelist of `isUsernameValid`, verbatim from the source. -/
def allowedCharacters : List Char :=
  ['A', 'a', 'B', 'b', 'C', 'c', 'D', 'd', 'E', 'e',
   'F', 'f', 'G', 'g', 'H', 'h', 'I', 'i', 'J', 'j',
   'K', 'k', 'L', 'l', 'M', 'm', 'N', 'n', 'O', 'o',
   'P', 'p', 'Q', 'q', 'R', 'r', 'S', 's', 'T', 't',
   'U', 'u', 'V', 'v', 'W', 'w', 'X', 'x', 'Y', 'y',
   'Z', 'z', '0', '1', '2', '3', '4', '5', '6', '7',
   '8', '9', '.', '_', '-']

/-- Go `isUsernameValid`: nonempty and drawn from the whitelist. -/
def isUsernameValid (username : String) : Bool :=
  1 ≤ username.length && username.data.all fun c => allowedCharacters.contains c

/-- Go `isPasswordValid`: any nonempty string. -/
def isPasswordValid (password : String) : Bool := 1 ≤ password.length

/-- `Database.RegisterUser`. `hp` is the argon2id password hash, `salt` the
random salt drawn inside, `newId` the AUTOINCREMENT id of the inserted row.
Returns the typed error (if any) and the resulting `Users` table; a fresh
user starts with the empty session-token blob. -/
def RegisterUser (hp : String → String → String) (users : List User)
    (username password salt : String) (newId : Nat) :
    Option DatabaseError × List User :=
  if !isUsernameValid username then (some .DisallowedUsername, users)
  else if !isPasswordValid password then (some .DisallowedPassword, users)
  else
    match findUser users username with
    | some _ => (some .ExistentUser, users)
    | none =>
        (none, users ++ [{ id := newId, username := username,
                           passwordHash := hp password salt,
                           passwordSalt := salt, sessionTokens := [] }])

/-- `Database.LoginUser`: recompute the password hash with the stored salt,
then mint a token via `AppendNew` and write the blob back. The fresh token
and token salt (random in Go) are arguments. -/
def LoginUser (hp ht : String → String → String) (users : List User)
    (username password token salt : String) :
    Except DatabaseError String × List User :=
  match findUser users username with
  | none => (.error .InexistentUser, users)
  | some u =>
      if hp password u.passwordSalt != u.passwordHash then
        (.error .InvalidPassword, users)
      else
        (.ok token,
         updateSessionTokens users username (appendNew ht u.sessionTokens token salt))

/-- `Database.authenticateUser`: resolve the user case-insensitively, then
check the token against the ledger. -/
def authenticateUser (ht : String → String → String) (users : List User)
    (username token : String) : Except DatabaseError Nat :=
  match findUser users username with
  | none => .error .InexistentUser
  | some u =>
      if hasToken ht u.sessionTokens token then .ok u.id
      else .error .InvalidToken

/-- Errors surfaced by operations that can also hit the unclassified
storage-failure path (a raw `sql` error in Go). -/
inductive DbError where
  | typed (e : DatabaseError)
  | storage
deriving DecidableEq, Repr

/-- `Database.GetUsername`: authenticate, then read back the username with
its stored capitalization by id; a missing id row is a storage-level error
in Go (raw `QueryRow` failure), modelled by `DbError.storage`. -/
def GetUsername (ht : String → String → String) (users : List User)
    (username token : String) : Except DbError String :=
  match authenticateUser ht users username token with
  | .error e => .error (.typed e)
  | .ok userId =>
      match findUserById users userId with
      | none => .error .storage
      | some u => .ok u.username

/-- `Database.IsAuthDataValid`: `InexistentUser` and `InvalidToken` collapse
to `ok false`; any other error from `authenticateUser` is propagated. -/
def IsAuthDataValid (ht : String → String → String) (users : List User)
    (username token : String) : Except DatabaseError Bool :=
  match authenticateUser ht users username token with
  | .error .InexistentUser => .ok false
  | .error .InvalidToken => .ok false
  | .error e => .error e
  | .ok _ => .ok true

/-- `Database.LogoutUser`: look the user up case-insensitively, remove the
token from the ledger (`UnknownToken` becomes `InvalidToken` and nothing is
written back), otherwise persist the shortened blob. -/
def LogoutUser (ht : String → String → String) (users : List User)
    (username token : String) : Option DatabaseError × List User :=
  match findUser users username with
  | none => (some .InexistentUser, users)
  | some u =>
      match removeToken ht u.sessionTokens token with
      | none => (some .InvalidToken, users)
      | some newToks => (none, updateSessionTokens users username newToks)

/-- A row of the `Doujins` table; the encoded array columns are modelled by
their decoded lists (Go JSON-encodes them on insert and the search decodes
them back, round-tripping exactly). -/
structure DoujinRow where
  id : Nat
  title : String
  subtitle : String
  uploadDate : String
  externalRating : Int
  tags : List String
  characters : List String
  artists : List String
  groups : List String
  languages : List String
  pages : Int
deriving DecidableEq, Repr

/-- Byte-wise string order (SQLite's BINARY text comparison on the
`upload_date` column), at the character level. -/
def charListLe : List Char → List Char → Bool
  | [], _ => true
  | _ :: _, [] => false
  | a :: as, b :: bs =>
      if a < b then true else if b < a then false else charListLe as bs

/-- String comparison used for `ORDER BY upload_date DESC`. -/
def strLe (a b : String) : Bool := charListLe a.data b.data

/-- Whether `needle` is a prefix of `hay` (character lists). -/
def startsWithChars : List Char → List Char → Bool
  | [], _ => true
  | _ :: _, [] => false
  | a :: as, b :: bs => a == b && startsWithChars as bs

/-- Whether `needle` occurs contiguously inside `hay` (character lists). -/
def containsChars (needle : List Char) : List Char → Bool
  | [] => needle.isEmpty
  | c :: rest => startsWithChars needle (c :: rest) || containsChars needle rest

/-- Semantics of `title LIKE ? ESCAPE ...` with the pattern
`"%" + escapeSqlLike(query) + "%"`: because every `%`, `_` and `\` of the
user's text is escaped, the pattern matches exactly when the query occurs as
a substring, case-insensitively on ASCII (SQLite LIKE folds ASCII case). -/
def textMatches (query : String) (d : DoujinRow) : Bool :=
  containsChars (asciiLower query).data (asciiLower d.title).data ||
  containsChars (asciiLower query).data (asciiLower d.subtitle).data

/-- Semantics of the WHERE clause built by `buildSearchQuery`: the free-text
match, one `EXISTS (... json_each(Doujins.tags) ... value = ?)` per tag and
one `NOT EXISTS` per anti-tag, all conjoined with AND. -/
def searchMatches (query : String) (tags antiTags : List String)
    (d : DoujinRow) : Bool :=
  textMatches query d &&
  (tags.all fun t => d.tags.contains t) &&
  (antiTags.all fun t => !(d.tags.contains t))

/-- Insert a row into a list kept in descending `upload_date` order. -/
def insertRowDesc (x : DoujinRow) : List DoujinRow → List DoujinRow
  | [] => [x]
  | y :: ys =>
      if strLe y.uploadDate x.uploadDate then x :: y :: ys
      else y :: insertRowDesc x ys

/-- Semantics of `ORDER BY upload_date DESC` (SQLite fixes no order between
equal dates; this model sorts stably). -/
def sortRowsByUploadDateDesc (l : List DoujinRow) : List DoujinRow :=
  l.foldr insertRowDesc []

/-- A bound SQL parameter of the built queries. -/
inductive SqlParam where
  | str (v : String)
  | int (v : Int)
deriving DecidableEq, Repr

/-- Go `escapeSqlLike`: escape `\`, `%` and `_` with a backslash so user
text cannot inject LIKE wildcards. -/
def escapeSqlLike (s : String) : String :=
  ⟨s.data.foldr
    (fun c acc =>
      if c = '\\' then '\\' :: '\\' :: acc
      else if c = '%' then '\\' :: '%' :: acc
      else if c = '_' then '\\' :: '_' :: acc
      else c :: acc)
    []⟩

/-- The `SELECT COUNT(*)` head of the count query. -/
def countSelectClause : String := "SELECT COUNT(*)"

/-- The column-list head of the fetch query. -/
def fetchSelectClause : String :=
  "SELECT id, title, subtitle, upload_date, external_rating, tags, characters, artists, groups, languages"

/-- The shared FROM/WHERE text (Go raw string literal, verbatim with its
tabs; `\x27` is the SQL quote). -/
def basicWhereClause : String :=
  "\n\t\tFROM Doujins\n\t\tWHERE (title LIKE ? ESCAPE \x27\\\x27 OR subtitle LIKE ? ESCAPE \x27\\\x27)\n\t"

/-- The per-tag EXISTS clause text. -/
def tagClause : String :=
  "\n\t\t\tAND EXISTS (\n\t\t\t\tSELECT 1 FROM json_each(Doujins.tags) AS jt\n\t\t\t\tWHERE jt.value = ?\n\t\t\t)\n\t\t"

/-- The per-anti-tag NOT EXISTS clause text. -/
def antiTagClause : String :=
  "\n\t\t\tAND NOT EXISTS (\n\t\t\t\tSELECT 1 FROM json_each(Doujins.tags) AS jt\n\t\t\t\tWHERE jt.value = ?\n\t\t\t)\n\t\t"

/-- The ORDER BY/LIMIT/OFFSET tail of the fetch query. -/
def paginationClause : String :=
  "\n\t\t\tORDER BY upload_date DESC\n\t\t\tLIMIT ? OFFSET ?\n\t\t"

/-- Go `buildSearchQuery`: the query text (a `strings.Builder` fold) and the
bound parameters, for the count query (`count = true`) or the paginated
fetch query (`count = false`). -/
def buildSearchQuery (query : String) (tags antiTags : List String)
    (pageSize pageNumber : Int) (count : Bool) : String × List SqlParam :=
  let sqlLikeQuery := "%" ++ escapeSqlLike query ++ "%"
  let filterText :=
    basicWhereClause ++
    String.join (tags.map fun _ => tagClause) ++
    String.join (antiTags.map fun _ => antiTagClause)
  let filterParams : List SqlParam :=
    [.str sqlLikeQuery, .str sqlLikeQuery] ++
    tags.map .str ++ antiTags.map .str
  if count then (countSelectClause ++ filterText, filterParams)
  else
    (fetchSelectClause ++ (filterText ++ paginationClause),
     filterParams ++ [.int pageSize, .int (pageSize * (pageNumber - 1))])

/-- The payload of `SearchDoujins`: the selected rows and the page total
(the Go code additionally decorates each row with its first page's id for
thumbnails, which no claim touches). -/
structure SearchResultM where
  entries : List DoujinRow
  totalPages : Int
deriving DecidableEq, Repr

/-- `Database.SearchDoujins`: authenticate, validate `pageSize`/`pageNumber`,
run the count query, compute `totalPages = ceil(count / pageSize)` (Go does
this through `math.Ceil` on exact small floats), reject an out-of-range page,
and fetch one page ordered by upload date descending with
`LIMIT pageSize OFFSET pageSize*(pageNumber-1)`. Count and fetch interpret
the same `searchMatches` filter, as the generated SQL shares its WHERE text. -/
def SearchDoujins (ht : String → String → String) (users : List User)
    (doujins : List DoujinRow) (username token query : String)
    (tags antiTags : List String) (pageSize pageNumber : Int) :
    Except DatabaseError SearchResultM :=
  match authenticateUser ht users username token with
  | .error e => .error e
  | .ok _ =>
      if pageSize < 1 ∨ 100 < pageSize then .error .InvalidPageSize
      else if pageNumber < 1 then .error .InvalidPageNumber
      else
        let matching := doujins.filter (searchMatches query tags antiTags)
        let resultsCount : Int := matching.length
        if resultsCount < 1 then .ok ⟨[], 0⟩
        else
          let totalPages : Int := (resultsCount + pageSize - 1) / pageSize
          if totalPages < pageNumber then .error .InvalidPageNumber
          else
            .ok ⟨((sortRowsByUploadDateDesc matching).drop
                    (pageSize * (pageNumber - 1)).toNat).take pageSize.toNat,
                 totalPages⟩

/-- Go `path.Ext`: the suffix of the last path element starting at its final
dot, or the empty string. -/
def pathExt (s : String) : String :=
  let rev := (s.data.reverse).takeWhile fun c => c ≠ '/'
  match rev.findIdx? fun c => c = '.' with
  | none => ""
  | some i => ⟨(rev.take (i + 1)).reverse⟩

/-- Go `removeExtension`: strip `path.Ext` when it is nonempty. -/
def removeExtension (fileName : String) : String :=
  let ext := pathExt fileName
  if ext ≠ "" then ⟨fileName.data.take (fileName.data.length - ext.data.length)⟩
  else fileName

/-- Go `strconv.ParseUint(s, 10, 32)`: decimal digits only, no sign, must
fit in 32 bits; `none` is the error case. -/
def parseUInt32? (s : String) : Option Nat :=
  if s.data.isEmpty then none
  else if s.data.all fun c => c.isDigit then
    let n := s.data.foldl (fun acc c => acc * 10 + (c.toNat - 48)) 0
    if n < 4294967296 then some n else none
  else none

/-- Go `pageNameToPageNumber`: parse the extension-stripped base name as an
unsigned page number, `-1` on failure. -/
def pageNameToPageNumber (fileName : String) : Int :=
  match parseUInt32? (removeExtension fileName) with
  | none => -1
  | some n => n

/-- One entry of `os.ReadDir` on the doujin folder. -/
structure DirEntry where
  name : String
  isDir : Bool
deriving DecidableEq, Repr

/-- The decoded `metadata.json` (`DoujinImportMetadata`); `uploadDate` is
kept as its RFC 3339 rendering, which is what the insert stores. -/
structure DoujinImportMetadata where
  title : String
  subtitle : String
  externalRating : Int
  uploadDate : String
  characters : List String
  tags : List String
  artists : List String
  groups : List String
  languages : List String
  pages : Int
deriving DecidableEq, Repr

/-- The folder entries the import loop keeps: non-directories whose name
parses to a page number (the loop skips `e.IsDir() || pageNumber == -1`). -/
def qualifyingEntries (entries : List DirEntry) : List DirEntry :=
  entries.filter fun e => !e.isDir && !(pageNameToPageNumber e.name == -1)

/-- The `importedPages` list collected by the loop, in directory order. -/
def collectPageNumbers (entries : List DirEntry) : List Int :=
  (qualifyingEntries entries).map fun e => pageNameToPageNumber e.name

/-- Insert into an ascending list (one step of the sort). -/
def insertSorted (x : Int) : List Int → List Int
  | [] => [x]
  | y :: ys => if x ≤ y then x :: y :: ys else y :: insertSorted x ys

/-- Go `sort.Ints`: the ascending sorted rearrangement (insertion sort; on
integers any sorted permutation is unique). -/
def sortInts (l : List Int) : List Int := l.foldr insertSorted []

/-- Walk the sorted page numbers with the loop index: the first position
where `i+1 != pageNumber` yields `(expected, found)`. -/
def checkSequential (i : Nat) : List Int → Option (Int × Int)
  | [] => none
  | p :: rest =>
      if ((i : Int) + 1) = p then checkSequential (i + 1) rest
      else some ((i : Int) + 1, p)

/-- The integer sequence `k+1, k+2, ..., k+n`; `seqFrom 0 n` is the spec's
"exact sequence 1..N". -/
def seqFrom (k n : Nat) : List Int :=
  (List.range n).map fun i : Nat => (k : Int) + (i : Int) + 1

/-- The import failure kinds of `RegisterDoujin`'s validation phase (Go
returns `fmt.Errorf` messages carrying exactly these numbers). -/
inductive ImportError where
  | missingPages (found declared : Int)
  | tooManyPages (found declared : Int)
  | nonSequentialPages (expected found : Int)
deriving DecidableEq, Repr

/-- The count and sequence checks `RegisterDoujin` runs after inserting the
pages: too few, too many, then the sorted 1..N walk. -/
def validatePages (importedPages : List Int) (declared : Int) :
    Option ImportError :=
  if (importedPages.length : Int) < declared then
    some (.missingPages importedPages.length declared)
  else if declared < (importedPages.length : Int) then
    some (.tooManyPages importedPages.length declared)
  else
    match checkSequential 0 (sortInts importedPages) with
    | some ef => some (.nonSequentialPages ef.1 ef.2)
    | none => none

/-- A row of the `DoujinPages` table. -/
structure PageRow where
  id : Nat
  doujinId : Nat
  pagePath : String
  pageNumber : Int
deriving DecidableEq, Repr

/-- The store the import pipeline writes to. -/
structure DbState where
  doujins : List DoujinRow
  doujinPages : List PageRow
deriving DecidableEq, Repr

/-- The `Doujins` row inserted from the decoded metadata. -/
def doujinRowOfMetadata (meta : DoujinImportMetadata) (id : Nat) : DoujinRow :=
  { id := id, title := meta.title, subtitle := meta.subtitle,
    uploadDate := meta.uploadDate, externalRating := meta.externalRating,
    tags := meta.tags, characters := meta.characters, artists := meta.artists,
    groups := meta.groups, languages := meta.languages, pages := meta.pages }

/-- The `DoujinPages` rows the transaction inserts, one per qualifying
entry, with AUTOINCREMENT ids from `basePageId` and
`page_path = path.Join(folderPath, name)`. -/
def pageRowsOf (entries : List DirEntry) (doujinId : Nat)
    (folderPath : String) (basePageId : Nat) : List PageRow :=
  (qualifyingEntries entries).enum.map fun ie =>
    { id := basePageId + ie.1, doujinId := doujinId,
      pagePath := folderPath ++ "/" ++ ie.2.name,
      pageNumber := pageNameToPageNumber ie.2.name }

/-- `Database.RegisterDoujin` after metadata decoding: the `Doujins` row is
inserted outside the page transaction, then the pages are inserted and
validated inside one transaction that commits only if validation passes and
rolls back otherwise (so a failure keeps the doujin row but none of its
pages). `newDoujinId`/`basePageId` stand for the AUTOINCREMENT ids. -/
def RegisterDoujin (st : DbState) (meta : DoujinImportMetadata)
    (entries : List DirEntry) (newDoujinId basePageId : Nat)
    (folderPath : String) : Option ImportError × DbState :=
  let stWithDoujin : DbState :=
    { st with doujins := st.doujins ++ [doujinRowOfMetadata meta newDoujinId] }
  match validatePages (collectPageNumbers entries) meta.pages with
  | some e => (some e, stWithDoujin)
  | none =>
      (none,
       { stWithDoujin with
         doujinPages :=
           st.doujinPages ++ pageRowsOf entries newDoujinId folderPath basePageId })

/-! Supporting lemmas. -/

theorem appendNew_length_le (ht : String → String → String)
    (entries : List TokenEntry) (t s : String)
    (h : entries.length ≤ MaxTokensPerUser - 1) :
    (appendNew ht entries t s).length ≤ MaxTokensPerUser - 1 := by
  simp only [appendNew]
  unfold MaxTokensPerUser at *
  split
  · simp only [List.length_drop, List.length_append, List.length_cons,
      List.length_nil]
    omega
  · next hc =>
      simp only [List.length_append, List.length_cons, List.length_nil] at hc ⊢
      omega

theorem removeToken_length (ht : String → String → String)
    (entries : List TokenEntry) (t : String) (l : List TokenEntry)
    (h : removeToken ht entries t = some l) :
    l.length + 1 = entries.length := by
  induction entries generalizing l with
  | nil => simp [removeToken] at h
  | cons e rest ih =>
      unfold removeToken at h
      split at h
      · cases h; simp
      · cases hrec : removeToken ht rest t with
        | none => rw [hrec] at h; cases h
        | some rest' =>
            rw [hrec] at h
            cases h
            simpa using ih rest' hrec

theorem removeToken_eq_none (ht : String → String → String)
    (entries : List TokenEntry) (t : String)
    (h : ∀ e ∈ entries, ¬ ht t e.salt = e.hash) :
    removeToken ht entries t = none := by
  induction entries with
  | nil => rfl
  | cons e rest ih =>
      unfold removeToken
      rw [if_neg, ih]
      · intro x hx
        exact h x (List.mem_cons_of_mem e hx)
      · simpa using h e (List.mem_cons_self e rest)

theorem applyLedgerOp_length (ht : String → String → String)
    (entries : List TokenEntry) (op : LedgerOp)
    (h : entries.length ≤ MaxTokensPerUser - 1) :
    (applyLedgerOp ht entries op).length ≤ MaxTokensPerUser - 1 := by
  cases op with
  | append t s => exact appendNew_length_le ht entries t s h
  | remove t =>
      simp only [applyLedgerOp]
      cases hrem : removeToken ht entries t with
      | none => exact h
      | some l =>
          have := removeToken_length ht entries t l hrem
          show l.length ≤ MaxTokensPerUser - 1
          omega

theorem foldl_ledger_length (ht : String → String → String)
    (ops : List LedgerOp) :
    ∀ entries : List TokenEntry, entries.length ≤ MaxTokensPerUser - 1 →
      (ops.foldl (applyLedgerOp ht) entries).length ≤ MaxTokensPerUser - 1 := by
  induction ops with
  | nil => intro entries h; simpa using h
  | cons op rest ih =>
      intro entries h
      exact ih (applyLedgerOp ht entries op) (applyLedgerOp_length ht entries op h)

theorem hasToken_eq_false_iff (ht : String → String → String)
    (entries : List TokenEntry) (t : String) :
    hasToken ht entries t = false ↔ ∀ e ∈ entries, ¬ ht t e.salt = e.hash := by
  unfold hasToken
  rw [← Bool.not_eq_true, List.any_eq_true]
  simp

theorem findUser_updateSessionTokens (users : List User) (username : String)
    (toks : List TokenEntry) (u : User)
    (h : findUser users username = some u) :
    findUser (updateSessionTokens users username toks) username =
      some { u with sessionTokens := toks } := by
  unfold findUser at h
  unfold findUser updateSessionTokens
  have hpu : usernameMatches u.username username = true := by
    simpa using List.find?_some h
  rw [List.find?_map]
  have hcomp :
      ((fun v : User => usernameMatches v.username username) ∘ fun v : User =>
        if usernameMatches v.username username = true then
          { v with sessionTokens := toks } else v) =
      fun v : User => usernameMatches v.username username := by
    funext v
    by_cases hv : usernameMatches v.username username = true
    · simp [hv]
    · simp [hv]
  rw [hcomp]
  rw [h]
  simp [hpu]

theorem seqFrom_succ (k n : Nat) :
    seqFrom k (n + 1) = ((k : Int) + 1) :: seqFrom (k + 1) n := by
  unfold seqFrom
  rw [List.range_succ_eq_map]
  simp only [List.map_cons, List.map_map, Nat.cast_zero]
  congr 1
  apply List.map_congr_left
  intro a _
  simp only [Function.comp_apply, Nat.succ_eq_add_one]
  push_cast
  ring

theorem checkSequential_eq_none_iff (l : List Int) :
    ∀ k : Nat, checkSequential k l = none ↔ l = seqFrom k l.length := by
  induction l with
  | nil => intro k; simp [checkSequential, seqFrom]
  | cons p rest ih =>
      intro k
      simp only [checkSequential, List.length_cons, seqFrom_succ]
      by_cases hp : ((k : Int) + 1) = p
      · subst hp
        rw [if_pos rfl, ih (k + 1)]
        simp
      · rw [if_neg hp]
        simp [List.cons.injEq, Ne.symm hp]

theorem checkSequential_eq_some (l : List Int) :
    ∀ (k : Nat) (e f : Int), checkSequential k l = some (e, f) →
      ∃ i, i < l.length ∧ e = (k : Int) + i + 1 ∧ f = l.getD i 0 ∧ ¬ f = e ∧
        ∀ j, j < i → l.getD j 0 = (k : Int) + j + 1 := by
  induction l with
  | nil => intro k e f h; simp [checkSequential] at h
  | cons p rest ih =>
      intro k e f h
      simp only [checkSequential] at h
      by_cases hp : ((k : Int) + 1) = p
      · rw [if_pos hp] at h
        obtain ⟨i, hi, he, hf, hne, hall⟩ := ih (k + 1) e f h
        refine ⟨i + 1, by simpa using hi, ?_, ?_, hne, ?_⟩
        · rw [he]; push_cast; ring
        · simpa [List.getD_cons_succ] using hf
        · intro j hj
          cases j with
          | zero =>
              simp only [List.getD_cons_zero, Nat.cast_zero]
              rw [← hp]
              ring
          | succ j' =>
              rw [List.getD_cons_succ, hall j' (by omega)]
              push_cast
              ring
      · rw [if_neg hp] at h
        simp only [Option.some.injEq, Prod.mk.injEq] at h
        obtain ⟨he, hf⟩ := h
        refine ⟨0, by simp, ?_, ?_, ?_, ?_⟩
        · rw [← he]; norm_num
        · rw [← hf]; simp
        · rw [← he, ← hf]; exact Ne.symm hp
        · intro j hj; omega

theorem length_insertSorted (x : Int) (l : List Int) :
    (insertSorted x l).length = l.length + 1 := by
  induction l with
  | nil => rfl
  | cons y ys ih =>
      unfold insertSorted
      split
      · simp
      · simp [ih]

theorem length_sortInts (l : List Int) : (sortInts l).length = l.length := by
  induction l with
  | nil => rfl
  | cons x xs ih =>
      show (insertSorted x (sortInts xs)).length = xs.length + 1
      rw [length_insertSorted, ih]

theorem upperChar_allowed (c : Char) (h1 : 65 ≤ c.toNat) (h2 : c.toNat ≤ 90) :
    allowedCharacters.contains c = true := by
  have hd : ∀ n, n < 91 → 65 ≤ n →
      allowedCharacters.contains (Char.ofNat n) = true := by decide
  have := hd c.toNat (by omega) h1
  rwa [Char.ofNat_toNat] at this

theorem lowerChar_allowed_closure (d : Char)
    (hd : allowedCharacters.contains d = true) :
    allowedCharacters.contains (lowerChar d) = true := by
  unfold lowerChar
  split
  · next hrange =>
      have hall : ∀ n, n < 123 → 97 ≤ n →
          allowedCharacters.contains (Char.ofNat n) = true := by decide
      exact hall (d.toNat + 32) (by omega) (by omega)
  · exact hd

theorem allowed_of_lowerChar_eq (c d : Char)
    (hd : allowedCharacters.contains d = true)
    (h : lowerChar c = lowerChar d) :
    allowedCharacters.contains c = true := by
  by_cases hc : 65 ≤ c.toNat ∧ c.toNat ≤ 90
  · exact upperChar_allowed c hc.1 hc.2
  · have hcl : lowerChar c = c := by unfold lowerChar; rw [if_neg hc]
    rw [hcl] at h
    rw [h]
    exact lowerChar_allowed_closure d hd

theorem allowed_all_of_map_lower (xs : List Char) :
    ∀ ys : List Char, xs.map lowerChar = ys.map lowerChar →
      (ys.all fun c => allowedCharacters.contains c) = true →
      (xs.all fun c => allowedCharacters.contains c) = true := by
  induction xs with
  | nil => intro ys _ _; rfl
  | cons x xs ih =>
      intro ys h hall
      cases ys with
      | nil => simp at h
      | cons y ys =>
          simp only [List.map_cons, List.cons.injEq] at h
          simp only [List.all_cons, Bool.and_eq_true] at hall ⊢
          exact ⟨allowed_of_lowerChar_eq x y hall.1 h.1, ih ys h.2 hall.2⟩

theorem isUsernameValid_of_lower_eq (a b : String)
    (hb : isUsernameValid b = true) (h : asciiLower a = asciiLower b) :
    isUsernameValid a = true := by
  unfold isUsernameValid at hb ⊢
  have hdata : a.data.map lowerChar = b.data.map lowerChar :=
    congrArg String.data h
  have hlen : a.length = b.length := by
    have h2 : (a.data.map lowerChar).length = (b.data.map lowerChar).length :=
      congrArg List.length hdata
    rw [List.length_map, List.length_map] at h2
    exact h2
  simp only [Bool.and_eq_true] at hb ⊢
  refine ⟨?_, allowed_all_of_map_lower a.data b.data hdata hb.2⟩
  rw [hlen]
  exact hb.1

theorem findUser_append_fresh (users : List User) (row : User)
    (name : String)
    (hfresh : findUser users name = none)
    (hrow : usernameMatches row.username name = true) :
    findUser (users ++ [row]) name = some row := by
  unfold findUser at hfresh ⊢
  rw [List.find?_append, hfresh]
  simp [List.find?_cons, hrow]

theorem base64encode_length (bs : List Nat) :
    (base64encode bs).length = 4 * ((bs.length + 2) / 3) := by
  induction bs using base64encode.induct with
  | case1 => simp [base64encode]
  | case2 b1 => simp [base64encode]
  | case3 b1 b2 => simp [base64encode]
  | case4 b1 b2 b3 rest ih =>
      simp only [base64encode, List.length_cons, ih]
      omega

/-! Claim theorems. -/

/-- C2: starting from the empty session-token list, every sequence of
`AppendNew` and `RemoveToken` operations leaves at most
`MaxTokensPerUser - 1` stored entries — `AppendNew` appends first and then
drops the oldest entry whenever the appended length is at least
`MaxTokensPerUser`, so a reachable list never holds `MaxTokensPerUser`
entries. -/
theorem ledger_reachable_length_lt_cap (ht : String → String → String)
    (ops : List LedgerOp) :
    (runLedgerOps ht ops).length ≤ MaxTokensPerUser - 1 ∧
    (runLedgerOps ht ops).length ≠ MaxTokensPerUser := by
  have h := foldl_ledger_length ht ops [] (by simp [MaxTokensPerUser])
  unfold runLedgerOps
  constructor
  · exact h
  · simp [MaxTokensPerUser] at *
    omega

/-- C8: for an existing user and a token whose salted hash matches none of
the stored `(hash, salt)` entries, `LogoutUser` returns `InvalidToken` and
the user store — in particular the user's session-token list — is exactly
unchanged. -/
theorem logoutUser_unknown_token_invalid (ht : String → String → String)
    (users : List User) (username token : String) (u : User)
    (hfind : findUser users username = some u)
    (hnone : ∀ e ∈ u.sessionTokens, ¬ ht token e.salt = e.hash) :
    LogoutUser ht users username token = (some .InvalidToken, users) := by
  simp [LogoutUser, hfind, removeToken_eq_none ht u.sessionTokens token hnone]

/-- C8 witness: a concrete store where logout of a never-issued token fails
with `InvalidToken` and changes nothing. -/
theorem logoutUser_unknown_token_invalid_witness :
    LogoutUser (fun t s => t ++ "#" ++ s)
      [{ id := 1, username := "alice", passwordHash := "ph",
         passwordSalt := "ps",
         sessionTokens := [{ hash := "tok#s0", salt := "s0" }] }]
      "alice" "other" =
    (some .InvalidToken,
     [{ id := 1, username := "alice", passwordHash := "ph",
        passwordSalt := "ps",
        sessionTokens := [{ hash := "tok#s0", salt := "s0" }] }]) :=
  logoutUser_unknown_token_invalid (fun t s => t ++ "#" ++ s) _ "alice" "other"
    { id := 1, username := "alice", passwordHash := "ph", passwordSalt := "ps",
      sessionTokens := [{ hash := "tok#s0", salt := "s0" }] }
    (by decide) (by decide)

theorem charListLe_total (a : List Char) :
    ∀ b, charListLe a b = true ∨ charListLe b a = true := by
  induction a with
  | nil => intro b; left; rfl
  | cons x as ih =>
      intro b
      cases b with
      | nil => right; rfl
      | cons y bs =>
          unfold charListLe
          by_cases h1 : x < y
          · left; rw [if_pos h1]
          · by_cases h2 : y < x
            · right; rw [if_pos h2]
            · rw [if_neg h1, if_neg h2, if_neg h2, if_neg h1]
              exact ih bs

theorem charListLe_trans (a : List Char) :
    ∀ b c, charListLe a b = true → charListLe b c = true →
      charListLe a c = true := by
  induction a with
  | nil => intro b c _ _; rfl
  | cons x as ih =>
      intro b c hab hbc
      cases b with
      | nil => simp [charListLe] at hab
      | cons y bs =>
          cases c with
          | nil => simp [charListLe] at hbc
          | cons z cs =>
              unfold charListLe at hab hbc ⊢
              by_cases hxy : x < y
              · by_cases hyz : y < z
                · rw [if_pos (lt_trans hxy hyz)]
                · by_cases hzy : z < y
                  · rw [if_neg hyz, if_pos hzy] at hbc
                    cases hbc
                  · have hyz' : y = z :=
                      le_antisymm (not_lt.mp hzy) (not_lt.mp hyz)
                    subst hyz'
                    rw [if_pos hxy]
              · by_cases hyx : y < x
                · rw [if_neg hxy, if_pos hyx] at hab
                  cases hab
                · have hxy' : x = y :=
                    le_antisymm (not_lt.mp hyx) (not_lt.mp hxy)
                  subst hxy'
                  rw [if_neg hxy, if_neg hyx] at hab
                  by_cases hxz : x < z
                  · rw [if_pos hxz]
                  · rw [if_neg hxz] at hbc ⊢
                    by_cases hzx : z < x
                    · rw [if_pos hzx] at hbc
                      cases hbc
                    · rw [if_neg hzx] at hbc ⊢
                      exact ih bs cs hab hbc

theorem strLe_total (a b : String) : strLe a b = true ∨ strLe b a = true :=
  charListLe_total a.data b.data

theorem strLe_trans (a b c : String) (hab : strLe a b = true)
    (hbc : strLe b c = true) : strLe a c = true :=
  charListLe_trans a.data b.data c.data hab hbc

theorem mem_insertRowDesc (x z : DoujinRow) (l : List DoujinRow) :
    z ∈ insertRowDesc x l ↔ z = x ∨ z ∈ l := by
  induction l with
  | nil => simp [insertRowDesc]
  | cons y ys ih =>
      unfold insertRowDesc
      split
      · simp only [List.mem_cons]
      · simp only [List.mem_cons, ih]
        tauto

theorem mem_sortRowsByUploadDateDesc (z : DoujinRow) (l : List DoujinRow) :
    z ∈ sortRowsByUploadDateDesc l ↔ z ∈ l := by
  induction l with
  | nil => simp [sortRowsByUploadDateDesc]
  | cons x xs ih =>
      show z ∈ insertRowDesc x (sortRowsByUploadDateDesc xs) ↔ _
      rw [mem_insertRowDesc, ih, List.mem_cons]

theorem pairwise_insertRowDesc (x : DoujinRow) (l : List DoujinRow)
    (h : l.Pairwise fun a b => strLe b.uploadDate a.uploadDate = true) :
    (insertRowDesc x l).Pairwise
      fun a b => strLe b.uploadDate a.uploadDate = true := by
  induction l with
  | nil => simp [insertRowDesc]
  | cons y ys ih =>
      unfold insertRowDesc
      split
      · next hyx =>
          refine List.Pairwise.cons ?_ h
          intro z hz
          rcases List.mem_cons.mp hz with rfl | hz'
          · exact hyx
          · exact strLe_trans _ _ _ ((List.pairwise_cons.mp h).1 z hz') hyx
      · next hyx =>
          have hxy : strLe x.uploadDate y.uploadDate = true := by
            rcases strLe_total y.uploadDate x.uploadDate with h' | h'
            · exact absurd h' hyx
            · exact h'
          refine List.Pairwise.cons ?_ (ih (List.pairwise_cons.mp h).2)
          intro z hz
          rcases (mem_insertRowDesc x z ys).mp hz with rfl | hz'
          · exact hxy
          · exact (List.pairwise_cons.mp h).1 z hz'

theorem pairwise_sortRowsByUploadDateDesc (l : List DoujinRow) :
    (sortRowsByUploadDateDesc l).Pairwise
      fun a b => strLe b.uploadDate a.uploadDate = true := by
  induction l with
  | nil => simp [sortRowsByUploadDateDesc]
  | cons x xs ih =>
      show (insertRowDesc x (sortRowsByUploadDateDesc xs)).Pairwise _
      exact pairwise_insertRowDesc x _ ih

theorem ceil_div_bounds (a p : Nat) (ha : 1 ≤ a) (hp : 1 ≤ p) :
    a ≤ ((a + p - 1) / p) * p ∧ ((a + p - 1) / p) * p < a + p := by
  have h1 := Nat.div_add_mod (a + p - 1) p
  have h2 : (a + p - 1) % p < p := Nat.mod_lt _ (by omega)
  constructor <;> rw [Nat.mul_comm] <;> omega

theorem validatePages_cases (pages : List Int) (declared : Int) :
    ((pages.length : Int) < declared →
      validatePages pages declared =
        some (.missingPages pages.length declared)) ∧
    (declared < (pages.length : Int) →
      validatePages pages declared =
        some (.tooManyPages pages.length declared)) ∧
    (validatePages pages declared = none ↔
      (pages.length : Int) = declared ∧
      sortInts pages = seqFrom 0 pages.length) ∧
    (∀ e f, validatePages pages declared = some (.nonSequentialPages e f) →
      ∃ i, i < (sortInts pages).length ∧ e = (i : Int) + 1 ∧
        f = (sortInts pages).getD i 0 ∧ ¬ f = e ∧
        ∀ j, j < i → (sortInts pages).getD j 0 = (j : Int) + 1) := by
  refine ⟨?_, ?_, ?_, ?_⟩
  · intro h
    unfold validatePages
    rw [if_pos h]
  · intro h
    unfold validatePages
    rw [if_neg (by omega), if_pos h]
  · unfold validatePages
    by_cases h1 : (pages.length : Int) < declared
    · rw [if_pos h1]
      constructor
      · intro h; cases h
      · intro h; omega
    · rw [if_neg h1]
      by_cases h2 : declared < (pages.length : Int)
      · rw [if_pos h2]
        constructor
        · intro h; cases h
        · intro h; omega
      · rw [if_neg h2]
        cases hseq : checkSequential 0 (sortInts pages) with
        | none =>
            have hiff := (checkSequential_eq_none_iff (sortInts pages) 0).mp hseq
            rw [length_sortInts] at hiff
            simp only []
            constructor
            · intro _; exact ⟨by omega, hiff⟩
            · intro _; trivial
        | some ef =>
            simp only []
            constructor
            · intro h; cases h
            · intro h
              have := (checkSequential_eq_none_iff (sortInts pages) 0).mpr
                (by rw [length_sortInts]; exact h.2)
              rw [hseq] at this
              cases this
  · intro e f h
    unfold validatePages at h
    by_cases h1 : (pages.length : Int) < declared
    · rw [if_pos h1] at h; cases h
    · rw [if_neg h1] at h
      by_cases h2 : declared < (pages.length : Int)
      · rw [if_pos h2] at h; cases h
      · rw [if_neg h2] at h
        cases hseq : checkSequential 0 (sortInts pages) with
        | none => rw [hseq] at h; cases h
        | some ef =>
            rw [hseq] at h
            simp only [Option.some.injEq] at h
            obtain ⟨i, hi, he, hf, hne, hall⟩ :=
              checkSequential_eq_some (sortInts pages) 0 ef.1 ef.2
                (by rw [hseq])
            have he' : e = ef.1 := by
              cases h; rfl
            have hf' : f = ef.2 := by
              cases h; rfl
            refine ⟨i, hi, ?_, ?_, ?_, ?_⟩
            · rw [he', he]; push_cast; ring
            · rw [hf', hf]
            · rw [hf', he']
              exact hne
            · intro j hj
              have := hall j hj
              rw [this]
              push_cast
              ring

/-- C4: for an import whose metadata declares `meta.pages` pages, fewer
qualifying page files yield the "missing pages" error and more yield the
"too many pages" error; with the right count, validation passes exactly
when the sorted collected page numbers are the sequence 1..N, and a
"non-sequential pages" error carries the expected number `i+1` and the
found number at the first index `i` where the sorted numbers diverge from
the sequence; `RegisterDoujin` commits exactly when validation passes. -/
theorem registerDoujin_page_validation
    (st : DbState) (meta : DoujinImportMetadata) (entries : List DirEntry)
    (newDoujinId basePageId : Nat) (folderPath : String) :
    ((((collectPageNumbers entries).length : Int) < meta.pages →
      validatePages (collectPageNumbers entries) meta.pages =
        some (.missingPages (collectPageNumbers entries).length meta.pages)) ∧
     (meta.pages < ((collectPageNumbers entries).length : Int) →
      validatePages (collectPageNumbers entries) meta.pages =
        some (.tooManyPages (collectPageNumbers entries).length meta.pages))) ∧
    (validatePages (collectPageNumbers entries) meta.pages = none ↔
      (((collectPageNumbers entries).length : Int) = meta.pages ∧
       sortInts (collectPageNumbers entries) =
         seqFrom 0 (collectPageNumbers entries).length)) ∧
    (∀ e f,
      validatePages (collectPageNumbers entries) meta.pages =
        some (.nonSequentialPages e f) →
      ∃ i, i < (sortInts (collectPageNumbers entries)).length ∧
        e = (i : Int) + 1 ∧
        f = (sortInts (collectPageNumbers entries)).getD i 0 ∧ ¬ f = e ∧
        ∀ j, j < i →
          (sortInts (collectPageNumbers entries)).getD j 0 = (j : Int) + 1) ∧
    (RegisterDoujin st meta entries newDoujinId basePageId folderPath).1 =
      validatePages (collectPageNumbers entries) meta.pages := by
  obtain ⟨hmiss, hmany, hnone, hseq⟩ :=
    validatePages_cases (collectPageNumbers entries) meta.pages
  refine ⟨⟨hmiss, hmany⟩, hnone, hseq, ?_⟩
  unfold RegisterDoujin
  cases validatePages (collectPageNumbers entries) meta.pages <;> rfl

/-- C4 witness: a folder with files 1.png and 2.png against a declared page
count of 3 fails with the "missing pages" error. -/
theorem registerDoujin_page_validation_witness :
    validatePages
      (collectPageNumbers [{ name := "1.png", isDir := false },
                           { name := "2.png", isDir := false }]) 3 =
      some (.missingPages
        (collectPageNumbers [{ name := "1.png", isDir := false },
                             { name := "2.png", isDir := false }]).length 3) :=
  (registerDoujin_page_validation ⟨[], []⟩
    { title := "t", subtitle := "s", externalRating := 0, uploadDate := "d",
      characters := [], tags := [], artists := [], groups := [],
      languages := [], pages := 3 }
    [{ name := "1.png", isDir := false }, { name := "2.png", isDir := false }]
    1 1 "folder").1.1 (by decide)

/-- C5: when page validation fails, the page-insertion transaction is
rolled back — no `DoujinPages` row from the import persists — while the
`Doujins` row inserted before the transaction opened remains in the store
as an orphan doujin with zero pages. -/
theorem registerDoujin_failed_import_rollback_orphan
    (st : DbState) (meta : DoujinImportMetadata) (entries : List DirEntry)
    (newDoujinId basePageId : Nat) (folderPath : String) (e : ImportError)
    (hfail : validatePages (collectPageNumbers entries) meta.pages = some e) :
    RegisterDoujin st meta entries newDoujinId basePageId folderPath =
      (some e,
       { doujins := st.doujins ++ [doujinRowOfMetadata meta newDoujinId],
         doujinPages := st.doujinPages }) := by
  simp [RegisterDoujin, hfail]

/-- C5 witness: a failed import (missing pages) leaves the orphan doujin
row and inserts no page row. -/
theorem registerDoujin_failed_import_rollback_orphan_witness :
    RegisterDoujin ⟨[], []⟩
      { title := "t", subtitle := "s", externalRating := 0, uploadDate := "d",
        characters := [], tags := [], artists := [], groups := [],
        languages := [], pages := 3 }
      [{ name := "1.png", isDir := false }, { name := "2.png", isDir := false }]
      1 1 "folder" =
      (some (.missingPages 2 3),
       { doujins := [doujinRowOfMetadata
           { title := "t", subtitle := "s", externalRating := 0,
             uploadDate := "d", characters := [], tags := [], artists := [],
             groups := [], languages := [], pages := 3 } 1],
         doujinPages := [] }) := by
  have h := registerDoujin_failed_import_rollback_orphan ⟨[], []⟩
    { title := "t", subtitle := "s", externalRating := 0, uploadDate := "d",
      characters := [], tags := [], artists := [], groups := [],
      languages := [], pages := 3 }
    [{ name := "1.png", isDir := false }, { name := "2.png", isDir := false }]
    1 1 "folder" (.missingPages 2 3) (by decide)
  simpa using h

/-- C1: for a user whose ledger holds exactly `MaxTokensPerUser` entries, a
further successful `LoginUser` keeps the stored count at `MaxTokensPerUser`
and evicts exactly the single oldest entry: afterwards `hasToken` and
`authenticateUser` fail for the evicted token (given its salted hash
collides with no remaining entry), while every newer token and the freshly
minted token still authenticate. -/
theorem loginUser_at_cap_evicts_only_oldest
    (hp ht : String → String → String) (users : List User)
    (username password token salt : String) (u : User)
    (e0 : TokenEntry) (rest : List TokenEntry) (t0 tNew : String)
    (hfind : findUser users username = some u)
    (htoks : u.sessionTokens = e0 :: rest)
    (hlen : u.sessionTokens.length = MaxTokensPerUser)
    (hpw : hp password u.passwordSalt = u.passwordHash)
    (ht0 : ht t0 e0.salt = e0.hash)
    (hnocol : ∀ e ∈ rest ++ [TokenEntry.mk (ht token salt) salt],
      ¬ ht t0 e.salt = e.hash)
    (htnew : hasToken ht rest tNew = true) :
    LoginUser hp ht users username password token salt =
      (.ok token,
       updateSessionTokens users username
         (rest ++ [TokenEntry.mk (ht token salt) salt])) ∧
    findUser
      (updateSessionTokens users username
        (rest ++ [TokenEntry.mk (ht token salt) salt])) username =
      some { u with
             sessionTokens := rest ++ [TokenEntry.mk (ht token salt) salt] } ∧
    (rest ++ [TokenEntry.mk (ht token salt) salt]).length = MaxTokensPerUser ∧
    hasToken ht u.sessionTokens t0 = true ∧
    hasToken ht (rest ++ [TokenEntry.mk (ht token salt) salt]) t0 = false ∧
    authenticateUser ht
      (updateSessionTokens users username
        (rest ++ [TokenEntry.mk (ht token salt) salt])) username t0 =
      .error .InvalidToken ∧
    authenticateUser ht
      (updateSessionTokens users username
        (rest ++ [TokenEntry.mk (ht token salt) salt])) username tNew =
      .ok u.id ∧
    authenticateUser ht
      (updateSessionTokens users username
        (rest ++ [TokenEntry.mk (ht token salt) salt])) username token =
      .ok u.id := by
  have hrest : rest.length = MaxTokensPerUser - 1 := by
    rw [htoks] at hlen
    simp only [List.length_cons] at hlen
    omega
  have happend : appendNew ht u.sessionTokens token salt =
      rest ++ [TokenEntry.mk (ht token salt) salt] := by
    simp only [appendNew, htoks]
    rw [if_pos]
    · rfl
    · simp only [List.length_append, List.length_cons, List.length_nil]
      unfold MaxTokensPerUser at *
      omega
  have hfind2 := findUser_updateSessionTokens users username
    (rest ++ [TokenEntry.mk (ht token salt) salt]) u hfind
  have hfalse :
      hasToken ht (rest ++ [TokenEntry.mk (ht token salt) salt]) t0 = false :=
    (hasToken_eq_false_iff ht _ t0).mpr hnocol
  refine ⟨?_, hfind2, ?_, ?_, hfalse, ?_, ?_, ?_⟩
  · simp [LoginUser, hfind, hpw, bne_self_eq_false, happend]
  · simp only [List.length_append, List.length_cons, List.length_nil]
    unfold MaxTokensPerUser at *
    omega
  · rw [htoks]
    simp [hasToken, ht0]
  · simp [authenticateUser, hfind2, hfalse]
  · have hnew :
        hasToken ht (rest ++ [TokenEntry.mk (ht token salt) salt]) tNew = true := by
      unfold hasToken at htnew ⊢
      rw [List.any_append, htnew]
      rfl
    simp [authenticateUser, hfind2, hnew]
  · have hfresh :
        hasToken ht (rest ++ [TokenEntry.mk (ht token salt) salt]) token = true := by
      unfold hasToken
      rw [List.any_append]
      simp
    simp [authenticateUser, hfind2, hfresh]

/-- C1 witness: a user at the twenty-token cap; after a login, the oldest
token "t0" stops authenticating while "t5" and the fresh token "tok" work. -/
theorem loginUser_at_cap_evicts_only_oldest_witness :
    authenticateUser (fun t s => t ++ "#" ++ s)
      (updateSessionTokens
        [{ id := 1, username := "alice", passwordHash := "ph",
           passwordSalt := "ps",
           sessionTokens :=
             [⟨"t0#s0", "s0"⟩, ⟨"t1#s1", "s1"⟩, ⟨"t2#s2", "s2"⟩,
              ⟨"t3#s3", "s3"⟩, ⟨"t4#s4", "s4"⟩, ⟨"t5#s5", "s5"⟩,
              ⟨"t6#s6", "s6"⟩, ⟨"t7#s7", "s7"⟩, ⟨"t8#s8", "s8"⟩,
              ⟨"t9#s9", "s9"⟩, ⟨"t10#s10", "s10"⟩, ⟨"t11#s11", "s11"⟩,
              ⟨"t12#s12", "s12"⟩, ⟨"t13#s13", "s13"⟩, ⟨"t14#s14", "s14"⟩,
              ⟨"t15#s15", "s15"⟩, ⟨"t16#s16", "s16"⟩, ⟨"t17#s17", "s17"⟩,
              ⟨"t18#s18", "s18"⟩, ⟨"t19#s19", "s19"⟩] }]
        "alice"
        ([⟨"t1#s1", "s1"⟩, ⟨"t2#s2", "s2"⟩,
          ⟨"t3#s3", "s3"⟩, ⟨"t4#s4", "s4"⟩, ⟨"t5#s5", "s5"⟩,
          ⟨"t6#s6", "s6"⟩, ⟨"t7#s7", "s7"⟩, ⟨"t8#s8", "s8"⟩,
          ⟨"t9#s9", "s9"⟩, ⟨"t10#s10", "s10"⟩, ⟨"t11#s11", "s11"⟩,
          ⟨"t12#s12", "s12"⟩, ⟨"t13#s13", "s13"⟩, ⟨"t14#s14", "s14"⟩,
          ⟨"t15#s15", "s15"⟩, ⟨"t16#s16", "s16"⟩, ⟨"t17#s17", "s17"⟩,
          ⟨"t18#s18", "s18"⟩, ⟨"t19#s19", "s19"⟩] ++
         [TokenEntry.mk ("tok" ++ "#" ++ "snew") "snew"]))
      "alice" "t0" = .error .InvalidToken ∧
    authenticateUser (fun t s => t ++ "#" ++ s)
      (updateSessionTokens
        [{ id := 1, username := "alice", passwordHash := "ph",
           passwordSalt := "ps",
           sessionTokens :=
             [⟨"t0#s0", "s0"⟩, ⟨"t1#s1", "s1"⟩, ⟨"t2#s2", "s2"⟩,
              ⟨"t3#s3", "s3"⟩, ⟨"t4#s4", "s4"⟩, ⟨"t5#s5", "s5"⟩,
              ⟨"t6#s6", "s6"⟩, ⟨"t7#s7", "s7"⟩, ⟨"t8#s8", "s8"⟩,
              ⟨"t9#s9", "s9"⟩, ⟨"t10#s10", "s10"⟩, ⟨"t11#s11", "s11"⟩,
              ⟨"t12#s12", "s12"⟩, ⟨"t13#s13", "s13"⟩, ⟨"t14#s14", "s14"⟩,
              ⟨"t15#s15", "s15"⟩, ⟨"t16#s16", "s16"⟩, ⟨"t17#s17", "s17"⟩,
              ⟨"t18#s18", "s18"⟩, ⟨"t19#s19", "s19"⟩] }]
        "alice"
        ([⟨"t1#s1", "s1"⟩, ⟨"t2#s2", "s2"⟩,
          ⟨"t3#s3", "s3"⟩, ⟨"t4#s4", "s4"⟩, ⟨"t5#s5", "s5"⟩,
          ⟨"t6#s6", "s6"⟩, ⟨"t7#s7", "s7"⟩, ⟨"t8#s8", "s8"⟩,
          ⟨"t9#s9", "s9"⟩, ⟨"t10#s10", "s10"⟩, ⟨"t11#s11", "s11"⟩,
          ⟨"t12#s12", "s12"⟩, ⟨"t13#s13", "s13"⟩, ⟨"t14#s14", "s14"⟩,
          ⟨"t15#s15", "s15"⟩, ⟨"t16#s16", "s16"⟩, ⟨"t17#s17", "s17"⟩,
          ⟨"t18#s18", "s18"⟩, ⟨"t19#s19", "s19"⟩] ++
         [TokenEntry.mk ("tok" ++ "#" ++ "snew") "snew"]))
      "alice" "t5" = .ok 1 ∧
    authenticateUser (fun t s => t ++ "#" ++ s)
      (updateSessionTokens
        [{ id := 1, username := "alice", passwordHash := "ph",
           passwordSalt := "ps",
           sessionTokens :=
             [⟨"t0#s0", "s0"⟩, ⟨"t1#s1", "s1"⟩, ⟨"t2#s2", "s2"⟩,
              ⟨"t3#s3", "s3"⟩, ⟨"t4#s4", "s4"⟩, ⟨"t5#s5", "s5"⟩,
              ⟨"t6#s6", "s6"⟩, ⟨"t7#s7", "s7"⟩, ⟨"t8#s8", "s8"⟩,
              ⟨"t9#s9", "s9"⟩, ⟨"t10#s10", "s10"⟩, ⟨"t11#s11", "s11"⟩,
              ⟨"t12#s12", "s12"⟩, ⟨"t13#s13", "s13"⟩, ⟨"t14#s14", "s14"⟩,
              ⟨"t15#s15", "s15"⟩, ⟨"t16#s16", "s16"⟩, ⟨"t17#s17", "s17"⟩,
              ⟨"t18#s18", "s18"⟩, ⟨"t19#s19", "s19"⟩] }]
        "alice"
        ([⟨"t1#s1", "s1"⟩, ⟨"t2#s2", "s2"⟩,
          ⟨"t3#s3", "s3"⟩, ⟨"t4#s4", "s4"⟩, ⟨"t5#s5", "s5"⟩,
          ⟨"t6#s6", "s6"⟩, ⟨"t7#s7", "s7"⟩, ⟨"t8#s8", "s8"⟩,
          ⟨"t9#s9", "s9"⟩, ⟨"t10#s10", "s10"⟩, ⟨"t11#s11", "s11"⟩,
          ⟨"t12#s12", "s12"⟩, ⟨"t13#s13", "s13"⟩, ⟨"t14#s14", "s14"⟩,
          ⟨"t15#s15", "s15"⟩, ⟨"t16#s16", "s16"⟩, ⟨"t17#s17", "s17"⟩,
          ⟨"t18#s18", "s18"⟩, ⟨"t19#s19", "s19"⟩] ++
         [TokenEntry.mk ("tok" ++ "#" ++ "snew") "snew"]))
      "alice" "tok" = .ok 1 := by
  have h := loginUser_at_cap_evicts_only_oldest
    (fun _ _ => "ph") (fun t s => t ++ "#" ++ s)
    [{ id := 1, username := "alice", passwordHash := "ph",
       passwordSalt := "ps",
       sessionTokens :=
         [⟨"t0#s0", "s0"⟩, ⟨"t1#s1", "s1"⟩, ⟨"t2#s2", "s2"⟩,
          ⟨"t3#s3", "s3"⟩, ⟨"t4#s4", "s4"⟩, ⟨"t5#s5", "s5"⟩,
          ⟨"t6#s6", "s6"⟩, ⟨"t7#s7", "s7"⟩, ⟨"t8#s8", "s8"⟩,
          ⟨"t9#s9", "s9"⟩, ⟨"t10#s10", "s10"⟩, ⟨"t11#s11", "s11"⟩,
          ⟨"t12#s12", "s12"⟩, ⟨"t13#s13", "s13"⟩, ⟨"t14#s14", "s14"⟩,
          ⟨"t15#s15", "s15"⟩, ⟨"t16#s16", "s16"⟩, ⟨"t17#s17", "s17"⟩,
          ⟨"t18#s18", "s18"⟩, ⟨"t19#s19", "s19"⟩] }]
    "alice" "pw" "tok" "snew"
    { id := 1, username := "alice", passwordHash := "ph",
      passwordSalt := "ps",
      sessionTokens :=
        [⟨"t0#s0", "s0"⟩, ⟨"t1#s1", "s1"⟩, ⟨"t2#s2", "s2"⟩,
         ⟨"t3#s3", "s3"⟩, ⟨"t4#s4", "s4"⟩, ⟨"t5#s5", "s5"⟩,
         ⟨"t6#s6", "s6"⟩, ⟨"t7#s7", "s7"⟩, ⟨"t8#s8", "s8"⟩,
         ⟨"t9#s9", "s9"⟩, ⟨"t10#s10", "s10"⟩, ⟨"t11#s11", "s11"⟩,
         ⟨"t12#s12", "s12"⟩, ⟨"t13#s13", "s13"⟩, ⟨"t14#s14", "s14"⟩,
         ⟨"t15#s15", "s15"⟩, ⟨"t16#s16", "s16"⟩, ⟨"t17#s17", "s17"⟩,
         ⟨"t18#s18", "s18"⟩, ⟨"t19#s19", "s19"⟩] }
    ⟨"t0#s0", "s0"⟩
    [⟨"t1#s1", "s1"⟩, ⟨"t2#s2", "s2"⟩,
     ⟨"t3#s3", "s3"⟩, ⟨"t4#s4", "s4"⟩, ⟨"t5#s5", "s5"⟩,
     ⟨"t6#s6", "s6"⟩, ⟨"t7#s7", "s7"⟩, ⟨"t8#s8", "s8"⟩,
     ⟨"t9#s9", "s9"⟩, ⟨"t10#s10", "s10"⟩, ⟨"t11#s11", "s11"⟩,
     ⟨"t12#s12", "s12"⟩, ⟨"t13#s13", "s13"⟩, ⟨"t14#s14", "s14"⟩,
     ⟨"t15#s15", "s15"⟩, ⟨"t16#s16", "s16"⟩, ⟨"t17#s17", "s17"⟩,
     ⟨"t18#s18", "s18"⟩, ⟨"t19#s19", "s19"⟩]
    "t0" "t5"
    (by decide) (by decide) (by decide) rfl (by decide) (by decide) (by decide)
  exact ⟨h.2.2.2.2.2.1, h.2.2.2.2.2.2.1, h.2.2.2.2.2.2.2⟩

/-- C7: with a valid username, a valid password and no stored user of that
name, `RegisterUser` succeeds and appends exactly one row with an empty
session ledger; an immediate second `RegisterUser` with the same username
in any casing (and any valid password, salt and id) returns `ExistentUser`
and leaves the store — including the first row's hash, salt and token
list — exactly unchanged. -/
theorem registerUser_duplicate_case_insensitive
    (hp : String → String → String) (users : List User)
    (username password salt : String) (newId : Nat)
    (username2 password2 salt2 : String) (newId2 : Nat)
    (hu : isUsernameValid username = true)
    (hpw : isPasswordValid password = true)
    (hpw2 : isPasswordValid password2 = true)
    (hfresh : findUser users username = none)
    (hcase : asciiLower username2 = asciiLower username) :
    RegisterUser hp users username password salt newId =
      (none, users ++ [{ id := newId, username := username,
                         passwordHash := hp password salt,
                         passwordSalt := salt, sessionTokens := [] }]) ∧
    RegisterUser hp
      (users ++ [{ id := newId, username := username,
                   passwordHash := hp password salt,
                   passwordSalt := salt, sessionTokens := [] }])
      username2 password2 salt2 newId2 =
      (some .ExistentUser,
       users ++ [{ id := newId, username := username,
                   passwordHash := hp password salt,
                   passwordSalt := salt, sessionTokens := [] }]) := by
  have hu2 : isUsernameValid username2 = true :=
    isUsernameValid_of_lower_eq username2 username hu hcase
  have hfind2 :
      findUser
        (users ++ [{ id := newId, username := username,
                     passwordHash := hp password salt,
                     passwordSalt := salt, sessionTokens := [] }]) username2 =
      some { id := newId, username := username,
             passwordHash := hp password salt,
             passwordSalt := salt, sessionTokens := [] } := by
    apply findUser_append_fresh
    · unfold findUser at hfresh ⊢
      have hpred : (fun u : User => usernameMatches u.username username2) =
          fun u : User => usernameMatches u.username username := by
        funext v
        unfold usernameMatches
        rw [hcase]
      rw [hpred, hfresh]
    · unfold usernameMatches
      rw [hcase]
      exact beq_self_eq_true _
  constructor
  · simp [RegisterUser, hu, hpw, hfresh]
  · simp [RegisterUser, hu2, hpw2, hfind2]

/-- C7 witness: registering "Ammie" then "AMMIE" on an empty store. -/
theorem registerUser_duplicate_case_insensitive_witness :
    RegisterUser (fun p s => p ++ "|" ++ s) [] "Ammie" "cats123" "s1" 1 =
      (none, [{ id := 1, username := "Ammie", passwordHash := "cats123" ++ "|" ++ "s1",
                passwordSalt := "s1", sessionTokens := [] }]) ∧
    RegisterUser (fun p s => p ++ "|" ++ s)
      [{ id := 1, username := "Ammie", passwordHash := "cats123" ++ "|" ++ "s1",
         passwordSalt := "s1", sessionTokens := [] }]
      "AMMIE" "cats123" "s2" 2 =
      (some .ExistentUser,
       [{ id := 1, username := "Ammie", passwordHash := "cats123" ++ "|" ++ "s1",
          passwordSalt := "s1", sessionTokens := [] }]) := by
  have h := registerUser_duplicate_case_insensitive (fun p s => p ++ "|" ++ s)
    [] "Ammie" "cats123" "s1" 1 "AMMIE" "cats123" "s2" 2
    (by decide) (by decide) (by decide) (by decide) (by decide)
  simpa using h

/-- C9: after registering "Ammie" with password "cats123" and logging in
with a token drawn from `SessionTokenLength` random bytes, the token is at
least 40 characters long and `GetUsername` called with the lower-cased
"ammie" authenticates and returns exactly "Ammie" as stored. -/
theorem register_login_getUsername_scenario
    (hp ht : String → String → String) (pwSalt tokSalt : String)
    (tokenBytes : List Nat) (hlen : tokenBytes.length = SessionTokenLength) :
    RegisterUser hp [] "Ammie" "cats123" pwSalt 1 =
      (none, [{ id := 1, username := "Ammie",
                passwordHash := hp "cats123" pwSalt,
                passwordSalt := pwSalt, sessionTokens := [] }]) ∧
    LoginUser hp ht
      [{ id := 1, username := "Ammie", passwordHash := hp "cats123" pwSalt,
         passwordSalt := pwSalt, sessionTokens := [] }]
      "Ammie" "cats123" (randomString tokenBytes) tokSalt =
      (.ok (randomString tokenBytes),
       [{ id := 1, username := "Ammie", passwordHash := hp "cats123" pwSalt,
          passwordSalt := pwSalt,
          sessionTokens := [{ hash := ht (randomString tokenBytes) tokSalt,
                              salt := tokSalt }] }]) ∧
    40 ≤ (randomString tokenBytes).length ∧
    GetUsername ht
      [{ id := 1, username := "Ammie", passwordHash := hp "cats123" pwSalt,
         passwordSalt := pwSalt,
         sessionTokens := [{ hash := ht (randomString tokenBytes) tokSalt,
                             salt := tokSalt }] }]
      "ammie" (randomString tokenBytes) = .ok "Ammie" := by
  refine ⟨?_, ?_, ?_, ?_⟩
  · simp [RegisterUser, findUser,
      (by decide : isUsernameValid "Ammie" = true),
      (by decide : isPasswordValid "cats123" = true)]
  · simp [LoginUser, findUser, List.find?_cons,
      (by decide : usernameMatches "Ammie" "Ammie" = true),
      bne_self_eq_false, appendNew, MaxTokensPerUser, updateSessionTokens]
  · have hb := base64encode_length tokenBytes
    unfold SessionTokenLength at hlen
    show 40 ≤ (base64encode tokenBytes).length
    omega
  · simp [GetUsername, authenticateUser, findUser, List.find?_cons,
      (by decide : usernameMatches "Ammie" "ammie" = true),
      hasToken, findUserById]

/-- C9 witness: the scenario with concrete hash functions, salts and thirty
zero bytes of token randomness. -/
theorem register_login_getUsername_scenario_witness :
    GetUsername (fun t s => t ++ "#" ++ s)
      [{ id := 1, username := "Ammie",
         passwordHash := "cats123" ++ "|" ++ "a", passwordSalt := "a",
         sessionTokens :=
           [{ hash := randomString (List.replicate 30 0) ++ "#" ++ "b",
              salt := "b" }] }]
      "ammie" (randomString (List.replicate 30 0)) = .ok "Ammie" ∧
    40 ≤ (randomString (List.replicate 30 0)).length := by
  have h := register_login_getUsername_scenario (fun p s => p ++ "|" ++ s)
    (fun t s => t ++ "#" ++ s) "a" "b" (List.replicate 30 0) (by decide)
  exact ⟨h.2.2.2, h.2.2.1⟩

/-- C3: for an authenticated search with `pageSize` in [1,100] and
`pageNumber` at least 1: a zero match count returns the empty result
without error; otherwise `totalPages` is the ceiling of count/pageSize
(stated as the two ceiling inequalities), a page number beyond
`totalPages` yields `InvalidPageNumber`, and otherwise the call returns
the matching doujins sorted by upload date descending with
`pageSize*(pageNumber-1)` entries skipped and at most `pageSize` kept;
count and fetch use identical filters: every returned entry satisfies the
same `searchMatches` predicate that defines the count, and the two
generated SQL queries share their WHERE text and bound parameters
verbatim. -/
theorem searchDoujins_pagination_contract
    (ht : String → String → String) (users : List User)
    (doujins : List DoujinRow) (username token query : String)
    (tags antiTags : List String) (pageSize pageNumber : Int) (uid : Nat)
    (matching : List DoujinRow) (count totalPages : Int)
    (entriesPage : List DoujinRow)
    (hauth : authenticateUser ht users username token = .ok uid)
    (hps1 : 1 ≤ pageSize) (hps2 : pageSize ≤ 100) (hpn : 1 ≤ pageNumber)
    (hm : matching = doujins.filter (searchMatches query tags antiTags))
    (hc : count = (matching.length : Int))
    (htp : totalPages = (count + pageSize - 1) / pageSize)
    (hep : entriesPage =
      ((sortRowsByUploadDateDesc matching).drop
        (pageSize * (pageNumber - 1)).toNat).take pageSize.toNat) :
    (count = 0 →
      SearchDoujins ht users doujins username token query tags antiTags
        pageSize pageNumber = .ok ⟨[], 0⟩) ∧
    (0 < count →
      (count ≤ totalPages * pageSize ∧
       totalPages * pageSize < count + pageSize) ∧
      (totalPages < pageNumber →
        SearchDoujins ht users doujins username token query tags antiTags
          pageSize pageNumber = .error .InvalidPageNumber) ∧
      (pageNumber ≤ totalPages →
        SearchDoujins ht users doujins username token query tags antiTags
          pageSize pageNumber = .ok ⟨entriesPage, totalPages⟩)) ∧
    entriesPage.length ≤ pageSize.toNat ∧
    List.Pairwise (fun a b => strLe b.uploadDate a.uploadDate = true)
      entriesPage ∧
    (∀ d ∈ entriesPage, searchMatches query tags antiTags d = true) ∧
    (∃ filterText filterParams,
      buildSearchQuery query tags antiTags pageSize pageNumber true =
        (countSelectClause ++ filterText, filterParams) ∧
      buildSearchQuery query tags antiTags pageSize pageNumber false =
        (fetchSelectClause ++ (filterText ++ paginationClause),
         filterParams ++
           [.int pageSize, .int (pageSize * (pageNumber - 1))])) := by
  subst hm hc htp hep
  have hcond1 : ¬(pageSize < 1 ∨ 100 < pageSize) := by omega
  have hcond2 : ¬(pageNumber < 1) := by omega
  refine ⟨?_, ?_, ?_, ?_, ?_, ?_⟩
  · intro hzero
    simp only [SearchDoujins, hauth]
    rw [if_neg hcond1, if_neg hcond2, if_pos (by omega)]
  · intro hpos
    have hL1 :
        1 ≤ (doujins.filter (searchMatches query tags antiTags)).length := by
      omega
    have hP1 : 1 ≤ pageSize.toNat := by omega
    have hPcast : (pageSize.toNat : Int) = pageSize :=
      Int.toNat_of_nonneg (by omega)
    have hnum :
        (((doujins.filter (searchMatches query tags antiTags)).length : Int) +
            pageSize - 1) =
          (((doujins.filter (searchMatches query tags antiTags)).length +
              pageSize.toNat - 1 : Nat) : Int) := by
      omega
    have hQ :
        (((doujins.filter (searchMatches query tags antiTags)).length : Int) +
            pageSize - 1) / pageSize =
          ((((doujins.filter (searchMatches query tags antiTags)).length +
              pageSize.toNat - 1) / pageSize.toNat : Nat) : Int) := by
      rw [hnum, Int.ofNat_ediv, hPcast]
    obtain ⟨hb1, hb2⟩ := ceil_div_bounds
      (doujins.filter (searchMatches query tags antiTags)).length
      pageSize.toNat hL1 hP1
    refine ⟨⟨?_, ?_⟩, ?_, ?_⟩
    · rw [hQ, ← hPcast, ← Int.ofNat_mul]
      exact_mod_cast hb1
    · rw [hQ, ← hPcast, ← Int.ofNat_mul]
      exact_mod_cast hb2
    · intro hgt
      simp only [SearchDoujins, hauth]
      rw [if_neg hcond1, if_neg hcond2, if_neg (by omega), if_pos hgt]
    · intro hle
      simp only [SearchDoujins, hauth]
      rw [if_neg hcond1, if_neg hcond2, if_neg (by omega),
        if_neg (not_lt.mpr hle)]
  · exact List.length_take_le _ _
  · exact List.Pairwise.sublist
      ((List.take_sublist _ _).trans (List.drop_sublist _ _))
      (pairwise_sortRowsByUploadDateDesc _)
  · intro d hd
    have h1 : d ∈ sortRowsByUploadDateDesc
        (doujins.filter (searchMatches query tags antiTags)) :=
      List.Sublist.mem hd
        ((List.take_sublist _ _).trans (List.drop_sublist _ _))
    have h2 := (mem_sortRowsByUploadDateDesc d _).mp h1
    exact (List.mem_filter.mp h2).2
  · exact ⟨_, _, rfl, rfl⟩

/-- C3 witness: a two-doujin store searched with page size 1; page 2 holds
the older doujin and a page number past the total is rejected. -/
theorem searchDoujins_pagination_contract_witness :
    SearchDoujins (fun t s => t ++ "#" ++ s)
      [{ id := 1, username := "alice", passwordHash := "ph",
         passwordSalt := "ps", sessionTokens := [⟨"tok#s0", "s0"⟩] }]
      [{ id := 1, title := "A", subtitle := "B", uploadDate := "b",
         externalRating := 0, tags := [], characters := [], artists := [],
         groups := [], languages := [], pages := 1 },
       { id := 2, title := "C", subtitle := "D", uploadDate := "a",
         externalRating := 0, tags := [], characters := [], artists := [],
         groups := [], languages := [], pages := 1 }]
      "alice" "tok" "" [] [] 1 2 =
      .ok ⟨[{ id := 2, title := "C", subtitle := "D", uploadDate := "a",
              externalRating := 0, tags := [], characters := [],
              artists := [], groups := [], languages := [], pages := 1 }],
           2⟩ ∧
    SearchDoujins (fun t s => t ++ "#" ++ s)
      [{ id := 1, username := "alice", passwordHash := "ph",
         passwordSalt := "ps", sessionTokens := [⟨"tok#s0", "s0"⟩] }]
      [{ id := 1, title := "A", subtitle := "B", uploadDate := "b",
         externalRating := 0, tags := [], characters := [], artists := [],
         groups := [], languages := [], pages := 1 },
       { id := 2, title := "C", subtitle := "D", uploadDate := "a",
         externalRating := 0, tags := [], characters := [], artists := [],
         groups := [], languages := [], pages := 1 }]
      "alice" "tok" "" [] [] 1 3 = .error .InvalidPageNumber := by
  have h2 := searchDoujins_pagination_contract (fun t s => t ++ "#" ++ s)
    [{ id := 1, username := "alice", passwordHash := "ph",
       passwordSalt := "ps", sessionTokens := [⟨"tok#s0", "s0"⟩] }]
    [{ id := 1, title := "A", subtitle := "B", uploadDate := "b",
       externalRating := 0, tags := [], characters := [], artists := [],
       groups := [], languages := [], pages := 1 },
     { id := 2, title := "C", subtitle := "D", uploadDate := "a",
       externalRating := 0, tags := [], characters := [], artists := [],
       groups := [], languages := [], pages := 1 }]
    "alice" "tok" "" [] [] 1 2 1
    [{ id := 1, title := "A", subtitle := "B", uploadDate := "b",
       externalRating := 0, tags := [], characters := [], artists := [],
       groups := [], languages := [], pages := 1 },
     { id := 2, title := "C", subtitle := "D", uploadDate := "a",
       externalRating := 0, tags := [], characters := [], artists := [],
       groups := [], languages := [], pages := 1 }]
    2 2
    [{ id := 2, title := "C", subtitle := "D", uploadDate := "a",
       externalRating := 0, tags := [], characters := [], artists := [],
       groups := [], languages := [], pages := 1 }]
    (by decide) (by decide) (by decide) (by decide)
    (by decide) (by decide) (by decide) (by decide)
  have h3 := searchDoujins_pagination_contract (fun t s => t ++ "#" ++ s)
    [{ id := 1, username := "alice", passwordHash := "ph",
       passwordSalt := "ps", sessionTokens := [⟨"tok#s0", "s0"⟩] }]
    [{ id := 1, title := "A", subtitle := "B", uploadDate := "b",
       externalRating := 0, tags := [], characters := [], artists := [],
       groups := [], languages := [], pages := 1 },
     { id := 2, title := "C", subtitle := "D", uploadDate := "a",
       externalRating := 0, tags := [], characters := [], artists := [],
       groups := [], languages := [], pages := 1 }]
    "alice" "tok" "" [] [] 1 3 1
    [{ id := 1, title := "A", subtitle := "B", uploadDate := "b",
       externalRating := 0, tags := [], characters := [], artists := [],
       groups := [], languages := [], pages := 1 },
     { id := 2, title := "C", subtitle := "D", uploadDate := "a",
       externalRating := 0, tags := [], characters := [], artists := [],
       groups := [], languages := [], pages := 1 }]
    2 2 []
    (by decide) (by decide) (by decide) (by decide)
    (by decide) (by decide) (by decide) (by decide)
  exact ⟨(h2.2.1 (by decide)).2.2 (by decide),
         ((h3.2.1 (by decide)).2.1 (by decide))⟩

/-- C6: a doujin matches a search exactly when the free text matches its
title or subtitle and every requested tag is an element of its stored tag
array while no anti-tag is; in particular, with an empty query, a doujin
tagged ["yuri","romance"] is returned by `SearchDoujins` for
tags=["yuri"], not returned for antiTags=["yuri"], and not returned for
tags=["yaoi"]. -/
theorem searchMatches_tag_semantics :
    (∀ (query : String) (tags antiTags : List String) (d : DoujinRow),
      searchMatches query tags antiTags d = true ↔
        (textMatches query d = true ∧ (∀ t ∈ tags, t ∈ d.tags) ∧
         ∀ t ∈ antiTags, ¬ t ∈ d.tags)) ∧
    SearchDoujins (fun t s => t ++ "#" ++ s)
      [{ id := 1, username := "alice", passwordHash := "ph",
         passwordSalt := "ps", sessionTokens := [⟨"tok#s0", "s0"⟩] }]
      [{ id := 7, title := "A", subtitle := "B",
         uploadDate := "2024-01-01T00:00:00Z", externalRating := 5,
         tags := ["yuri", "romance"], characters := [], artists := [],
         groups := [], languages := [], pages := 2 }]
      "alice" "tok" "" ["yuri"] [] 21 1 =
      .ok ⟨[{ id := 7, title := "A", subtitle := "B",
              uploadDate := "2024-01-01T00:00:00Z", externalRating := 5,
              tags := ["yuri", "romance"], characters := [], artists := [],
              groups := [], languages := [], pages := 2 }], 1⟩ ∧
    SearchDoujins (fun t s => t ++ "#" ++ s)
      [{ id := 1, username := "alice", passwordHash := "ph",
         passwordSalt := "ps", sessionTokens := [⟨"tok#s0", "s0"⟩] }]
      [{ id := 7, title := "A", subtitle := "B",
         uploadDate := "2024-01-01T00:00:00Z", externalRating := 5,
         tags := ["yuri", "romance"], characters := [], artists := [],
         groups := [], languages := [], pages := 2 }]
      "alice" "tok" "" [] ["yuri"] 21 1 = .ok ⟨[], 0⟩ ∧
    SearchDoujins (fun t s => t ++ "#" ++ s)
      [{ id := 1, username := "alice", passwordHash := "ph",
         passwordSalt := "ps", sessionTokens := [⟨"tok#s0", "s0"⟩] }]
      [{ id := 7, title := "A", subtitle := "B",
         uploadDate := "2024-01-01T00:00:00Z", externalRating := 5,
         tags := ["yuri", "romance"], characters := [], artists := [],
         groups := [], languages := [], pages := 2 }]
      "alice" "tok" "" ["yaoi"] [] 21 1 = .ok ⟨[], 0⟩ := by
  refine ⟨?_, by decide, by decide, by decide⟩
  intro query tags antiTags d
  unfold searchMatches
  simp [List.all_eq_true, List.contains, List.elem_iff, and_assoc]

/-- C10: `IsAuthDataValid` never surfaces an error from the pure store: it
returns `ok false` when the user is absent or the token is not in the
user's ledger, `ok true` exactly when `authenticateUser` succeeds, and an
error branch exists only for pass-through of storage failures, which the
store-level model cannot produce. -/
theorem isAuthDataValid_never_raises (ht : String → String → String)
    (users : List User) (username token : String) :
    IsAuthDataValid ht users username token =
      .ok (match authenticateUser ht users username token with
           | .ok _ => true
           | .error _ => false) ∧
    (findUser users username = none →
      IsAuthDataValid ht users username token = .ok false) ∧
    (∀ u, findUser users username = some u →
      hasToken ht u.sessionTokens token = false →
      IsAuthDataValid ht users username token = .ok false) ∧
    (∀ uid, authenticateUser ht users username token = .ok uid →
      IsAuthDataValid ht users username token = .ok true) ∧
    (∀ e, ¬ IsAuthDataValid ht users username token = .error e) := by
  have hcases :
      IsAuthDataValid ht users username token =
        .ok (match authenticateUser ht users username token with
             | .ok _ => true
             | .error _ => false) := by
    unfold IsAuthDataValid authenticateUser
    cases hf : findUser users username with
    | none => rfl
    | some u =>
        cases htok : hasToken ht u.sessionTokens token with
        | true => simp [htok]
        | false => simp [htok]
  refine ⟨hcases, ?_, ?_, ?_, ?_⟩
  · intro hnone
    rw [hcases]
    simp [authenticateUser, hnone]
  · intro u hu htok
    rw [hcases]
    simp [authenticateUser, hu, htok]
  · intro uid hok
    rw [hcases, hok]
  · intro e h
    rw [hcases] at h
    simp at h

/-- C10 witness: an absent user and a wrong token both yield `ok false`, a
valid pair yields `ok true`. -/
theorem isAuthDataValid_never_raises_witness :
    IsAuthDataValid (fun t s => t ++ "#" ++ s)
      [{ id := 1, username := "alice", passwordHash := "ph",
         passwordSalt := "ps",
         sessionTokens := [{ hash := "tok#s0", salt := "s0" }] }]
      "ghost" "tok" = .ok false ∧
    IsAuthDataValid (fun t s => t ++ "#" ++ s)
      [{ id := 1, username := "alice", passwordHash := "ph",
         passwordSalt := "ps",
         sessionTokens := [{ hash := "tok#s0", salt := "s0" }] }]
      "alice" "bad" = .ok false ∧
    IsAuthDataValid (fun t s => t ++ "#" ++ s)
      [{ id := 1, username := "alice", passwordHash := "ph",
         passwordSalt := "ps",
         sessionTokens := [{ hash := "tok#s0", salt := "s0" }] }]
      "alice" "tok" = .ok true := by
  refine ⟨?_, ?_, ?_⟩
  · exact (isAuthDataValid_never_raises (fun t s => t ++ "#" ++ s) _
      "ghost" "tok").2.1 (by decide)
  · exact (isAuthDataValid_never_raises (fun t s => t ++ "#" ++ s) _
      "alice" "bad").2.2.1
      { id := 1, username := "alice", passwordHash := "ph",
        passwordSalt := "ps",
        sessionTokens := [{ hash := "tok#s0", salt := "s0" }] }
      (by decide) (by decide)
  · exact (isAuthDataValid_never_raises (fun t s => t ++ "#" ++ s) _
      "alice" "tok").2.2.2.1 1 (by decide)

end HV
